import Mathlib

/-!
Shallow embedding of the annotation-canvas geometry of the proto_annot
repository: the `CanvasUtils` class (`getTransformHandles`, `getHandleAtPoint`,
`transformAnnotation`, `getPointInCanvas`, `isPointInAnnotation`) and the
draw-commit decision of `ImageViewer.handleMouseUp`, together with theorems
settling the behavioural claims about them.

Numbers are embedded as exact rationals (`ℚ`).  `Math.atan2` is kept abstract
(a function parameter of `transformAnnotation`): the rotation claims only
concern how its results are combined, never its value.  `Math.sqrt` occurs in
the source only on the left of comparisons `Math.sqrt d <= t`; these are
embedded square-free as `0 ≤ t ∧ d ≤ t ^ 2`, which is equivalent
(`Real.sqrt_le_iff`); the lemma `sqrtLe_eq_sqrt_le` certifies the equivalence.
-/

namespace ProtoAnnot

/-- Record `Point` from types/index.ts: an x and a y coordinate. -/
structure Point where
  x : ℚ
  y : ℚ
deriving DecidableEq, Repr

/-- The `bounds` record of an annotation: `{ x, y, width, height }`. -/
structure Bounds where
  x : ℚ
  y : ℚ
  width : ℚ
  height : ℚ
deriving DecidableEq, Repr

/-- Union type rectangle-or-circle from types/index.ts. -/
inductive ShapeType where
  | rectangle
  | circle
deriving DecidableEq, Repr

/-- Record `Annotation` from types/index.ts.  The optional fields are `Option`s. -/
structure Annotation where
  id : String
  type : ShapeType
  label : String
  color : String
  points : List Point
  bounds : Option Bounds := none
  rotation : Option ℚ := none
  scaleX : Option ℚ := none
  scaleY : Option ℚ := none
  confidence : Option ℚ := none
  notes : Option String := none
deriving DecidableEq, Repr

/-- Union type corner-edge-rotation from types/index.ts. -/
inductive HandleType where
  | corner
  | edge
  | rotation
deriving DecidableEq, Repr

/-- Union type of the nine handle positions from types/index.ts. -/
inductive HandlePosition where
  | nw
  | ne
  | sw
  | se
  | n
  | s
  | e
  | w
  | rotate
deriving DecidableEq, Repr

/-- Record `TransformHandle` from types/index.ts. -/
structure TransformHandle where
  type : HandleType
  position : HandlePosition
  point : Point
deriving DecidableEq, Repr

/-- Source `CanvasUtils.getTransformHandles` (part_001, lines 142-163): the fixed
nine-handle list — four corners, four edge midpoints, one rotation handle
30 units above the top-center. -/
def getTransformHandles (bounds : Bounds) : List TransformHandle :=
  let centerX := bounds.x + bounds.width / 2
  let centerY := bounds.y + bounds.height / 2
  [ ⟨.corner, .nw, ⟨bounds.x, bounds.y⟩⟩,
    ⟨.corner, .ne, ⟨bounds.x + bounds.width, bounds.y⟩⟩,
    ⟨.corner, .sw, ⟨bounds.x, bounds.y + bounds.height⟩⟩,
    ⟨.corner, .se, ⟨bounds.x + bounds.width, bounds.y + bounds.height⟩⟩,
    ⟨.edge, .n, ⟨centerX, bounds.y⟩⟩,
    ⟨.edge, .s, ⟨centerX, bounds.y + bounds.height⟩⟩,
    ⟨.edge, .e, ⟨bounds.x + bounds.width, centerY⟩⟩,
    ⟨.edge, .w, ⟨bounds.x, centerY⟩⟩,
    ⟨.rotation, .rotate, ⟨centerX, bounds.y - 30⟩⟩ ]

/-- Squared Euclidean distance, the argument of `Math.sqrt` in the source. -/
def dist2 (p q : Point) : ℚ :=
  (p.x - q.x) ^ 2 + (p.y - q.y) ^ 2

/-- The comparison `Math.sqrt d <= t` of the source, embedded square-free:
for every `d` it holds iff `0 ≤ t ∧ d ≤ t ^ 2` (see `sqrtLe_eq_sqrt_le`). -/
def sqrtLe (d t : ℚ) : Bool :=
  decide (0 ≤ t ∧ d ≤ t ^ 2)

/-- Lemma: `sqrtLe` agrees with the real square-root comparison it embeds. -/
theorem sqrtLe_eq_sqrt_le (d t : ℚ) :
    sqrtLe d t = true ↔ Real.sqrt (d : ℝ) ≤ (t : ℝ) := by
  rw [Real.sqrt_le_iff, sqrtLe, decide_eq_true_iff]
  constructor
  · rintro ⟨h1, h2⟩
    exact ⟨by exact_mod_cast h1, by exact_mod_cast h2⟩
  · rintro ⟨h1, h2⟩
    exact ⟨by exact_mod_cast h1, by exact_mod_cast h2⟩

/-- Source `CanvasUtils.getHandleAtPoint` (part_001, lines 165-178): scan the nine
handles in order and return the first whose distance to `point` is at most
`tolerance`; `null` (here `none`) when there is none. -/
def getHandleAtPoint (point : Point) (bounds : Bounds) (tolerance : ℚ) :
    Option TransformHandle :=
  (getTransformHandles bounds).find? fun h => sqrtLe (dist2 point h.point) tolerance

/-- The corner/edge arm of the `switch` in `CanvasUtils.transformAnnotation`
(part_001, lines 192-235): mutate a copy of the bounds according to the
handle; positions not listed under the type of the handle leave the copy as is. -/
def resizeBounds (ht : HandleType) (pos : HandlePosition)
    (deltaX deltaY : ℚ) (b : Bounds) : Bounds :=
  match ht with
  | .corner =>
    match pos with
    | .nw => { b with x := b.x + deltaX, y := b.y + deltaY,
                      width := b.width - deltaX, height := b.height - deltaY }
    | .ne => { b with y := b.y + deltaY,
                      width := b.width + deltaX, height := b.height - deltaY }
    | .sw => { b with x := b.x + deltaX,
                      width := b.width - deltaX, height := b.height + deltaY }
    | .se => { b with width := b.width + deltaX, height := b.height + deltaY }
    | _ => b
  | .edge =>
    match pos with
    | .n => { b with y := b.y + deltaY, height := b.height - deltaY }
    | .s => { b with height := b.height + deltaY }
    | .e => { b with width := b.width + deltaX }
    | .w => { b with x := b.x + deltaX, width := b.width - deltaX }
    | _ => b
  | .rotation => b

/-- Step "Ensure minimum size" (part_001, lines 251-253):
`newBounds.width = Math.max(10, Math.abs(newBounds.width))`, likewise height. -/
def ensureMinSize (b : Bounds) : Bounds :=
  { b with width := max 10 |b.width|, height := max 10 |b.height| }

/-- Step "Handle negative dimensions" (part_001, lines 255-263): fold a negative
width/height into the origin and take the absolute value.  In the source this
runs after `ensureMinSize`, which is why it never fires. -/
def fixNegative (b : Bounds) : Bounds :=
  let b1 := if b.width < 0 then { b with x := b.x + b.width, width := |b.width| } else b
  if b1.height < 0 then { b1 with y := b1.y + b1.height, height := |b1.height| } else b1

/-- Source `CanvasUtils.transformAnnotation` (part_001, lines 180-273).  `atan2` is
the abstract stand-in for `Math.atan2` (first argument y, second x); the
function never throws — the boundless case returns the input unchanged. -/
def transformAnnotation (atan2 : ℚ → ℚ → ℚ) (ann : Annotation)
    (handle : TransformHandle) (startPoint currentPoint : Point) : Annotation :=
  match ann.bounds with
  | none => ann
  | some bounds =>
    let deltaX := currentPoint.x - startPoint.x
    let deltaY := currentPoint.y - startPoint.y
    match handle.type with
    | .rotation =>
      let centerX := bounds.x + bounds.width / 2
      let centerY := bounds.y + bounds.height / 2
      let startAngle := atan2 (startPoint.y - centerY) (startPoint.x - centerX)
      let currentAngle := atan2 (currentPoint.y - centerY) (currentPoint.x - centerX)
      let rotation := currentAngle - startAngle
      { ann with rotation := some (ann.rotation.getD 0 + rotation) }
    | ht =>
      let nb := fixNegative (ensureMinSize
        (resizeBounds ht handle.position deltaX deltaY bounds))
      { ann with
        bounds := some nb,
        points := [⟨nb.x, nb.y⟩, ⟨nb.x + nb.width, nb.y + nb.height⟩] }

/-- Result of `canvas.getBoundingClientRect()` as used by `getPointInCanvas`:
the origin of the canvas surface in client coordinates. -/
structure ClientRect where
  left : ℚ
  top : ℚ
deriving DecidableEq, Repr

/-- Source `CanvasUtils.getPointInCanvas` (part_001, lines 300-311):
`((client − rect origin) / scale) − offset`, per coordinate. -/
def getPointInCanvas (clientX clientY : ℚ) (rect : ClientRect)
    (scale : ℚ) (offset : Point) : Point :=
  ⟨(clientX - rect.left) / scale - offset.x,
   (clientY - rect.top) / scale - offset.y⟩

/-- The forward render transform of `ImageViewer.performRender` (lines
115-117): the context applies `scale(scale, scale)` then
`translate(offset.x, offset.y)`, so an image-space point `p` lands on the
client at `rect origin + scale * (p + offset)`, per coordinate. -/
def renderTransform (p : Point) (rect : ClientRect)
    (scale : ℚ) (offset : Point) : Point :=
  ⟨rect.left + scale * (p.x + offset.x),
   rect.top + scale * (p.y + offset.y)⟩

/-- Source `CanvasUtils.isPointInAnnotation` (part_001, lines 313-347): with bounds
present, an inclusive box test regardless of the annotation type; otherwise
the legacy per-type fallback on `points`.  The circle fallback compares
`Math.sqrt (dist2 p center) <= Math.sqrt (dist2 points1 center)`, embedded
square-free (both radicands are nonnegative, and `√` is monotone). -/
def isPointInAnnotation (point : Point) (ann : Annotation) : Bool :=
  match ann.bounds with
  | some b =>
    decide (point.x ≥ b.x ∧ point.x ≤ b.x + b.width ∧
            point.y ≥ b.y ∧ point.y ≤ b.y + b.height)
  | none =>
    match ann.type with
    | .rectangle =>
      match ann.points with
      | p0 :: p1 :: _ =>
        let minX := min p0.x p1.x
        let maxX := max p0.x p1.x
        let minY := min p0.y p1.y
        let maxY := max p0.y p1.y
        decide (point.x ≥ minX ∧ point.x ≤ maxX ∧ point.y ≥ minY ∧ point.y ≤ maxY)
      | _ => false
    | .circle =>
      match ann.points with
      | p0 :: p1 :: _ => decide (dist2 point p0 ≤ dist2 p1 p0)
      | _ => false

/-- The draw-commit decision of `ImageViewer.handleMouseUp` (lines 402-413):
the in-progress annotation is passed to `onAnnotationAdd` exactly when
`bounds && bounds.width > 5 && bounds.height > 5`; otherwise the gesture is
discarded (`none`). -/
def commitDrawnAnnotation (ann : Annotation) : Option Annotation :=
  match ann.bounds with
  | some b => if 5 < b.width ∧ 5 < b.height then some ann else none
  | none => none

/-! Helper lemmas about the transform pipeline. -/

/-- The clamp-then-flip tail of the corner/edge arm, as one function. -/
def clampResize (handle : TransformHandle) (s c : Point) (b : Bounds) : Bounds :=
  fixNegative (ensureMinSize
    (resizeBounds handle.type handle.position (c.x - s.x) (c.y - s.y) b))

lemma ensureMinSize_x (b : Bounds) : (ensureMinSize b).x = b.x := rfl

lemma ensureMinSize_y (b : Bounds) : (ensureMinSize b).y = b.y := rfl

lemma ensureMinSize_width (b : Bounds) : (ensureMinSize b).width = max 10 |b.width| := rfl

lemma ensureMinSize_height (b : Bounds) : (ensureMinSize b).height = max 10 |b.height| := rfl

lemma ten_le_ensureMinSize_width (b : Bounds) : 10 ≤ (ensureMinSize b).width :=
  le_max_left _ _

lemma ten_le_ensureMinSize_height (b : Bounds) : 10 ≤ (ensureMinSize b).height :=
  le_max_left _ _

/-- The "handle negative dimensions" step is the identity on any bounds with
nonnegative dimensions. -/
lemma fixNegative_of_nonneg (b : Bounds) (hw : 0 ≤ b.width) (hh : 0 ≤ b.height) :
    fixNegative b = b := by
  simp [fixNegative, not_lt.2 hw, not_lt.2 hh]

/-- After the min-size clamp both dimensions are at least 10, so the
negative-dimension flip that follows it in the source can never fire. -/
lemma fixNegative_ensureMinSize (b : Bounds) :
    fixNegative (ensureMinSize b) = ensureMinSize b :=
  fixNegative_of_nonneg _
    (le_trans (by norm_num) (ten_le_ensureMinSize_width b))
    (le_trans (by norm_num) (ten_le_ensureMinSize_height b))

/-- The min-size clamp is the identity on bounds already at least 10×10. -/
lemma ensureMinSize_of_ge (b : Bounds) (hw : 10 ≤ b.width) (hh : 10 ≤ b.height) :
    ensureMinSize b = b := by
  have hw0 : (0:ℚ) ≤ b.width := le_trans (by norm_num) hw
  have hh0 : (0:ℚ) ≤ b.height := le_trans (by norm_num) hh
  simp [ensureMinSize, abs_of_nonneg hw0, abs_of_nonneg hh0,
    max_eq_right hw, max_eq_right hh]

/-- A zero drag leaves the bounds copy of the resize arm untouched, whatever
the handle type and position. -/
lemma resizeBounds_zero (ht : HandleType) (pos : HandlePosition) (b : Bounds) :
    resizeBounds ht pos 0 0 b = b := by
  cases ht <;> cases pos <;> simp [resizeBounds]

/-- Unfolding of `transformAnnotation` on a corner/edge handle when bounds are
present: the result carries the clamped resized bounds and the regenerated
two-point list. -/
lemma transformAnnotation_corner_edge (atan2 : ℚ → ℚ → ℚ) (ann : Annotation)
    (handle : TransformHandle) (s c : Point) (b : Bounds)
    (hb : ann.bounds = some b) (hr : handle.type ≠ HandleType.rotation) :
    transformAnnotation atan2 ann handle s c =
      { ann with
        bounds := some (clampResize handle s c b),
        points := [⟨(clampResize handle s c b).x, (clampResize handle s c b).y⟩,
                   ⟨(clampResize handle s c b).x + (clampResize handle s c b).width,
                    (clampResize handle s c b).y + (clampResize handle s c b).height⟩] } := by
  obtain ⟨i, ty, la, co, pts, bo, ro, sx, sy, cf, no⟩ := ann
  obtain ⟨ht, pos, hpt⟩ := handle
  simp only at hb
  subst hb
  cases ht
  · simp [ transformAnnotation, clampResize]
  · simp [ transformAnnotation, clampResize]
  · exact absurd rfl hr

/-- Unfolding of `transformAnnotation` on a rotation handle when bounds are
present: only the `rotation` field changes. -/
lemma transformAnnotation_rotation (atan2 : ℚ → ℚ → ℚ) (ann : Annotation)
    (pos : HandlePosition) (hpt : Point) (s c : Point) (b : Bounds)
    (hb : ann.bounds = some b) :
    transformAnnotation atan2 ann ⟨HandleType.rotation, pos, hpt⟩ s c =
      { ann with rotation := some (ann.rotation.getD 0 +
          (atan2 (c.y - (b.y + b.height / 2)) (c.x - (b.x + b.width / 2)) -
           atan2 (s.y - (b.y + b.height / 2)) (s.x - (b.x + b.width / 2)))) } := by
  obtain ⟨i, ty, la, co, pts, bo, ro, sx, sy, cf, no⟩ := ann
  simp only at hb
  subst hb
  simp [ transformAnnotation]

/-! Concrete fixtures for witnesses. -/

/-- A concrete rectangle annotation with the given points and bounds. -/
def mkRect (pts : List Point) (b : Option Bounds) : Annotation :=
  { id := "a", type := ShapeType.rectangle, label := "box", color := "#ff0000",
    points := pts, bounds := b }

/-! Theorems settling the claims. -/

/-- C7: for every annotation whose bounds field is absent, and for every
handle, start point and current point, `transformAnnotation` returns the input
unchanged (and, being a total Lean function, never throws). -/
theorem spec_C7_boundless_unchanged (atan2 : ℚ → ℚ → ℚ) (ann : Annotation)
    (handle : TransformHandle) (s c : Point) (hb : ann.bounds = none) :
    transformAnnotation atan2 ann handle s c = ann := by
  obtain ⟨i, ty, la, co, pts, bo, ro, sx, sy, cf, no⟩ := ann
  simp only at hb
  subst hb
  simp [ transformAnnotation]

/-- Witness for C7 at a concrete boundless annotation and a concrete drag. -/
theorem spec_C7_witness :
    transformAnnotation (fun _ _ => 0) (mkRect [⟨1, 2⟩] none)
        ⟨HandleType.corner, HandlePosition.se, ⟨0, 0⟩⟩ ⟨0, 0⟩ ⟨3, 4⟩
      = mkRect [⟨1, 2⟩] none :=
  spec_C7_boundless_unchanged _ _ _ _ _ rfl

/-- C3: a rotation-type handle changes only the `rotation` field — bounds and
points are returned identical to the input — and the new rotation is the input
rotation (0 if absent) plus the difference of the `atan2` angles of the
current and start points around the bounds center. -/
theorem spec_C3_rotation_frame (atan2 : ℚ → ℚ → ℚ) (ann : Annotation) (b : Bounds)
    (pos : HandlePosition) (hpt : Point) (s c : Point) (hb : ann.bounds = some b) :
    ( transformAnnotation atan2 ann ⟨HandleType.rotation, pos, hpt⟩ s c).bounds = ann.bounds ∧
    ( transformAnnotation atan2 ann ⟨HandleType.rotation, pos, hpt⟩ s c).points = ann.points ∧
    ( transformAnnotation atan2 ann ⟨HandleType.rotation, pos, hpt⟩ s c).rotation =
      some (ann.rotation.getD 0 +
        (atan2 (c.y - (b.y + b.height / 2)) (c.x - (b.x + b.width / 2)) -
         atan2 (s.y - (b.y + b.height / 2)) (s.x - (b.x + b.width / 2)))) := by
  rw [transformAnnotation_rotation atan2 ann pos hpt s c b hb]
  exact ⟨rfl, rfl, rfl⟩

/-- Witness for C3: the points list survives a concrete rotation drag. -/
theorem spec_C3_witness :
    ( transformAnnotation (fun y x => x + 2 * y) (mkRect [⟨9, 9⟩] (some ⟨0, 0, 20, 20⟩))
        ⟨HandleType.rotation, HandlePosition.rotate, ⟨10, -40⟩⟩ ⟨1, 1⟩ ⟨2, 3⟩).points
      = (mkRect [⟨9, 9⟩] (some ⟨0, 0, 20, 20⟩)).points :=
  (spec_C3_rotation_frame _ _ ⟨0, 0, 20, 20⟩ _ _ _ _ rfl).2.1

/-- C2: on bounds at least 10×10, dragging the `e` edge handle changes only
the width; the resulting `x`, `y` and `height` equal those of the input (and the new
width is the clamped `width + deltaX`). -/
theorem spec_C2_east_edge_width_only (atan2 : ℚ → ℚ → ℚ) (ann : Annotation) (b : Bounds)
    (hpt : Point) (s c : Point) (hb : ann.bounds = some b)
    (_hw : 10 ≤ b.width) (hh : 10 ≤ b.height) :
    ∃ nb : Bounds,
      ( transformAnnotation atan2 ann ⟨HandleType.edge, HandlePosition.e, hpt⟩ s c).bounds
        = some nb ∧
      nb.x = b.x ∧ nb.y = b.y ∧ nb.height = b.height ∧
      nb.width = max 10 |b.width + (c.x - s.x)| := by
  have hh0 : (0:ℚ) ≤ b.height := le_trans (by norm_num) hh
  have hcr : clampResize ⟨HandleType.edge, HandlePosition.e, hpt⟩ s c b =
      { b with width := max 10 |b.width + (c.x - s.x)|, height := max 10 |b.height| } := by
    simp only [clampResize, fixNegative_ensureMinSize]
    simp [resizeBounds, ensureMinSize]
  refine ⟨clampResize ⟨HandleType.edge, HandlePosition.e, hpt⟩ s c b, ?_, ?_, ?_, ?_, ?_⟩
  · rw [transformAnnotation_corner_edge atan2 ann _ s c b hb (by simp)]
  · rw [hcr]
  · rw [hcr]
  · rw [hcr]
    show max 10 |b.height| = b.height
    rw [abs_of_nonneg hh0]
    exact max_eq_right hh
  · rw [hcr]

/-- Witness for C2 at concrete bounds 20×30 and a concrete drag. -/
theorem spec_C2_witness :
    ∃ nb : Bounds,
      ( transformAnnotation (fun _ _ => 0) (mkRect [] (some ⟨1, 2, 20, 30⟩))
          ⟨HandleType.edge, HandlePosition.e, ⟨21, 17⟩⟩ ⟨0, 0⟩ ⟨7, 11⟩).bounds = some nb ∧
      nb.x = 1 ∧ nb.y = 2 ∧ nb.height = 30 ∧ nb.width = max 10 |20 + ((7:ℚ) - 0)| :=
  spec_C2_east_edge_width_only _ _ ⟨1, 2, 20, 30⟩ _ _ _ rfl (by norm_num) (by norm_num)

/-- C10: the clamp `Math.max(10, Math.abs ...)` runs before the sign test, so
the result of every corner/edge transform is exactly the clamped resized
bounds — the negative-dimension flip never fires — with both dimensions at
least 10; and an `se` drag never moves the origin. -/
theorem spec_C10_clamp_before_flip (atan2 : ℚ → ℚ → ℚ) (ann : Annotation)
    (handle : TransformHandle) (s c : Point) (b : Bounds)
    (hb : ann.bounds = some b) (hr : handle.type ≠ HandleType.rotation) :
    ∃ nb : Bounds,
      ( transformAnnotation atan2 ann handle s c).bounds = some nb ∧
      nb = ensureMinSize
        (resizeBounds handle.type handle.position (c.x - s.x) (c.y - s.y) b) ∧
      10 ≤ nb.width ∧ 10 ≤ nb.height ∧
      (handle.type = HandleType.corner → handle.position = HandlePosition.se →
        nb.x = b.x ∧ nb.y = b.y) := by
  obtain ⟨ht, pos, hpt⟩ := handle
  have hcr : clampResize ⟨ht, pos, hpt⟩ s c b =
      ensureMinSize (resizeBounds ht pos (c.x - s.x) (c.y - s.y) b) := by
    simp only [clampResize, fixNegative_ensureMinSize]
  refine ⟨clampResize ⟨ht, pos, hpt⟩ s c b, ?_, hcr, ?_, ?_, ?_⟩
  · rw [transformAnnotation_corner_edge atan2 ann _ s c b hb hr]
  · rw [hcr]
    exact ten_le_ensureMinSize_width _
  · rw [hcr]
    exact ten_le_ensureMinSize_height _
  · intro htc hpos
    simp only at htc hpos
    subst htc
    subst hpos
    rw [hcr]
    exact ⟨rfl, rfl⟩

/-- Witness for C10 at the worked example of the spec: the south-east drag of a
20×20 box past its opposite corner keeps both dimensions at the 10 floor. -/
theorem spec_C10_witness :
    ∃ nb : Bounds,
      ( transformAnnotation (fun _ _ => 0) (mkRect [] (some ⟨0, 0, 20, 20⟩))
          ⟨HandleType.corner, HandlePosition.se, ⟨20, 20⟩⟩ ⟨20, 20⟩ ⟨-5, -5⟩).bounds
        = some nb ∧
      10 ≤ nb.width ∧ 10 ≤ nb.height ∧ nb.x = 0 ∧ nb.y = 0 := by
  obtain ⟨nb, h1, _, h3, h4, h5⟩ :=
    spec_C10_clamp_before_flip (fun _ _ => 0) (mkRect [] (some ⟨0, 0, 20, 20⟩))
      ⟨HandleType.corner, HandlePosition.se, ⟨20, 20⟩⟩ ⟨20, 20⟩ ⟨-5, -5⟩
      ⟨0, 0, 20, 20⟩ rfl (by simp)
  exact ⟨nb, h1, h3, h4, (h5 rfl rfl).1, (h5 rfl rfl).2⟩

/-- C1: evaluating the source at the worked example of the spec — bounds
{x:0,y:0,width:20,height:20}, `se` handle dragged from (20,20) to (-5,-5) —
yields bounds {x:0,y:0,width:10,height:10}, not the claimed
{x:-5,y:-5,width:10,height:10}: the min-size clamp `Math.max(10, Math.abs ..)`
runs before the negative-size flip, so the origin never moves. -/
theorem spec_C1_code_eval :
    ( transformAnnotation (fun _ _ => 0) (mkRect [⟨0, 0⟩, ⟨20, 20⟩] (some ⟨0, 0, 20, 20⟩))
        ⟨HandleType.corner, HandlePosition.se, ⟨20, 20⟩⟩ ⟨20, 20⟩ ⟨-5, -5⟩).bounds
      = some ⟨0, 0, 10, 10⟩ ∧
    ( transformAnnotation (fun _ _ => 0) (mkRect [⟨0, 0⟩, ⟨20, 20⟩] (some ⟨0, 0, 20, 20⟩))
        ⟨HandleType.corner, HandlePosition.se, ⟨20, 20⟩⟩ ⟨20, 20⟩ ⟨-5, -5⟩).bounds
      ≠ some ⟨-5, -5, 10, 10⟩ := by
  constructor <;>
    norm_num [ transformAnnotation, mkRect, resizeBounds, ensureMinSize, fixNegative]

/-- C8 (amended to corner and edge handles): with bounds at least 10×10, a
drag with `currentPoint = startPoint` returns the original bounds and the
regenerated two-point list `[{x,y}, {x+width, y+height}]`. -/
theorem spec_C8_zero_drag (atan2 : ℚ → ℚ → ℚ) (ann : Annotation) (b : Bounds)
    (handle : TransformHandle) (s : Point)
    (hb : ann.bounds = some b) (hw : 10 ≤ b.width) (hh : 10 ≤ b.height)
    (hr : handle.type ≠ HandleType.rotation) :
    ( transformAnnotation atan2 ann handle s s).bounds = some b ∧
    ( transformAnnotation atan2 ann handle s s).points =
      [⟨b.x, b.y⟩, ⟨b.x + b.width, b.y + b.height⟩] := by
  have hw0 : (0:ℚ) ≤ b.width := le_trans (by norm_num) hw
  have hh0 : (0:ℚ) ≤ b.height := le_trans (by norm_num) hh
  have hcr : clampResize handle s s b = b := by
    simp only [clampResize, sub_self, resizeBounds_zero, ensureMinSize_of_ge b hw hh,
      fixNegative_of_nonneg b hw0 hh0]
  rw [transformAnnotation_corner_edge atan2 ann handle s s b hb hr, hcr]
  exact ⟨rfl, rfl⟩

/-- Witness for C8 at concrete 12×15 bounds and a zero drag on the nw corner. -/
theorem spec_C8_witness :
    ( transformAnnotation (fun _ _ => 0) (mkRect [] (some ⟨3, 4, 12, 15⟩))
        ⟨HandleType.corner, HandlePosition.nw, ⟨3, 4⟩⟩ ⟨6, 6⟩ ⟨6, 6⟩).bounds
      = some ⟨3, 4, 12, 15⟩ ∧
    ( transformAnnotation (fun _ _ => 0) (mkRect [] (some ⟨3, 4, 12, 15⟩))
        ⟨HandleType.corner, HandlePosition.nw, ⟨3, 4⟩⟩ ⟨6, 6⟩ ⟨6, 6⟩).points
      = [⟨3, 4⟩, ⟨3 + 12, 4 + 15⟩] :=
  spec_C8_zero_drag _ _ ⟨3, 4, 12, 15⟩ _ _ rfl (by norm_num) (by norm_num) (by simp)

/-- C8 as stated fails on a rotation handle: the source returns early there,
leaving `points` untouched instead of regenerating the two corner points —
here an empty points list stays empty although bounds are a 10×10 box. -/
theorem spec_C8_counterexample :
    ( transformAnnotation (fun _ _ => 0) (mkRect [] (some ⟨0, 0, 10, 10⟩))
        ⟨HandleType.rotation, HandlePosition.rotate, ⟨5, -30⟩⟩ ⟨0, 0⟩ ⟨0, 0⟩).points
      ≠ [⟨0, 0⟩, ⟨0 + 10, 0 + 10⟩] := by
  rw [transformAnnotation_rotation (fun _ _ => 0) _ _ _ _ _ ⟨0, 0, 10, 10⟩ rfl]
  simp [mkRect]

/-- C4: `getTransformHandles` lists exactly 9 handles; `getHandleAtPoint`
returns the first handle in that order whose distance to `p` is at most `t`
(inclusive: squared distance at most `t²`), `none` exactly when every handle
is strictly farther than `t`, and a point exactly at the coordinates of a handle is
always found for any `t ≥ 0`. -/
theorem spec_C4_first_handle_within (b : Bounds) (p : Point) (t : ℚ) (ht : 0 ≤ t) :
    (getTransformHandles b).length = 9 ∧
    (∀ h : TransformHandle, getHandleAtPoint p b t = some h →
      dist2 p h.point ≤ t ^ 2 ∧
      ∃ l1 l2, getTransformHandles b = l1 ++ h :: l2 ∧
        ∀ h' ∈ l1, t ^ 2 < dist2 p h'.point) ∧
    (getHandleAtPoint p b t = none ↔
      ∀ h ∈ getTransformHandles b, t ^ 2 < dist2 p h.point) ∧
    (∀ h ∈ getTransformHandles b, p = h.point → (getHandleAtPoint p b t).isSome) := by
  have hpred : ∀ d : ℚ, sqrtLe d t = true ↔ d ≤ t ^ 2 := by
    intro d
    simp [sqrtLe, ht]
  refine ⟨rfl, ?_, ?_, ?_⟩
  · intro h hh
    rw [getHandleAtPoint, List.find?_eq_some] at hh
    obtain ⟨hpb, l1, l2, heq, hall⟩ := hh
    refine ⟨(hpred _).1 hpb, l1, l2, heq, fun h' hmem => ?_⟩
    have hfalse := hall h' hmem
    rw [Bool.not_eq_true'] at hfalse
    exact not_le.1 fun hle => by simp [(hpred _).2 hle] at hfalse
  · rw [getHandleAtPoint, List.find?_eq_none]
    constructor
    · intro hnone h hmem
      exact not_le.1 fun hle => hnone h hmem ((hpred _).2 hle)
    · intro hfar h hmem hp
      exact absurd ((hpred _).1 hp) (not_le.2 (hfar h hmem))
  · intro h hmem hp
    rw [getHandleAtPoint, List.find?_isSome]
    refine ⟨h, hmem, (hpred _).2 ?_⟩
    have hzero : dist2 p h.point = 0 := by
      rw [hp]
      simp [dist2]
    rw [hzero]
    exact sq_nonneg t

/-- Witness for C4: on a 20×20 box at the origin with tolerance 8, there are
9 handles and the point (0,0) — exactly the nw corner handle — is found. -/
theorem spec_C4_witness :
    (getTransformHandles ⟨0, 0, 20, 20⟩).length = 9 ∧
    (getHandleAtPoint ⟨0, 0⟩ ⟨0, 0, 20, 20⟩ 8).isSome := by
  obtain ⟨h1, _, _, h4⟩ := spec_C4_first_handle_within ⟨0, 0, 20, 20⟩ ⟨0, 0⟩ 8 (by norm_num)
  exact ⟨h1, h4 ⟨HandleType.corner, HandlePosition.nw, ⟨0, 0⟩⟩
    (by simp [getTransformHandles]) rfl⟩

/-- C5: whenever the bounds field is present — for rectangle and circle
alike — `isPointInAnnotation` is the inclusive bounding-box test. -/
theorem spec_C5_bounds_box_test (ann : Annotation) (b : Bounds) (p : Point)
    (hb : ann.bounds = some b) :
    ( isPointInAnnotation p ann = true ↔
      (b.x ≤ p.x ∧ p.x ≤ b.x + b.width ∧ b.y ≤ p.y ∧ p.y ≤ b.y + b.height)) := by
  obtain ⟨i, ty, la, co, pts, bo, ro, sx, sy, cf, no⟩ := ann
  simp only at hb
  subst hb
  simp [ isPointInAnnotation, ge_iff_le]

/-- Witness for C5: the corner point (20,20) of the box (0,0,20,20) lies
exactly on the boundary and counts as inside. -/
theorem spec_C5_witness :
    isPointInAnnotation ⟨20, 20⟩ (mkRect [] (some ⟨0, 0, 20, 20⟩)) = true :=
  (spec_C5_bounds_box_test _ ⟨0, 0, 20, 20⟩ _ rfl).2 (by norm_num)

/-- C6: `getPointInCanvas` is the exact inverse of the forward transform of
the render pipeline (scale, then translate by offset), for every positive
scale and every offset. -/
theorem spec_C6_inverse_of_render (cx cy : ℚ) (rect : ClientRect) (scale : ℚ)
    (offset : Point) (hs : 0 < scale) :
    renderTransform (getPointInCanvas cx cy rect scale offset) rect scale offset
      = ⟨cx, cy⟩ := by
  have hs0 : scale ≠ 0 := ne_of_gt hs
  simp only [getPointInCanvas, renderTransform, Point.mk.injEq]
  constructor <;> · field_simp
                    ring

/-- Witness for C6: scale 2 and offset (5,5) round-trip the device point
(7,11) with canvas surface origin (100,50). -/
theorem spec_C6_witness :
    renderTransform (getPointInCanvas 7 11 ⟨100, 50⟩ 2 ⟨5, 5⟩) ⟨100, 50⟩ 2 ⟨5, 5⟩
      = ⟨7, 11⟩ :=
  spec_C6_inverse_of_render 7 11 ⟨100, 50⟩ 2 ⟨5, 5⟩ (by norm_num)

/-- C9: the in-progress drawn annotation is committed at pointer-up exactly
when it has bounds with width and height both strictly above 5, and what is
committed is the annotation itself; otherwise nothing is added. -/
theorem spec_C9_commit_iff (ann : Annotation) :
    ( commitDrawnAnnotation ann = some ann ↔
      ∃ b, ann.bounds = some b ∧ 5 < b.width ∧ 5 < b.height) ∧
    ∀ a, commitDrawnAnnotation ann = some a → a = ann := by
  obtain ⟨i, ty, la, co, pts, bo, ro, sx, sy, cf, no⟩ := ann
  cases bo with
  | none => simp [ commitDrawnAnnotation]
  | some b =>
    by_cases hcond : 5 < b.width ∧ 5 < b.height
    · simp [ commitDrawnAnnotation, hcond]
    · simp [ commitDrawnAnnotation, if_neg hcond, hcond]

/-- Witness for C9: a 6×7 drawn box is committed. -/
theorem spec_C9_witness :
    commitDrawnAnnotation (mkRect [] (some ⟨0, 0, 6, 7⟩))
      = some (mkRect [] (some ⟨0, 0, 6, 7⟩)) :=
  (spec_C9_commit_iff _).1.2 ⟨⟨0, 0, 6, 7⟩, rfl, by norm_num, by norm_num⟩

end ProtoAnnot
